import Mathlib

set_option maxHeartbeats 800000

/-! Shallow embedding of the command-dispatch facade in
`src/src-tauri/src/main.rs`: the `greet` command, the `get_app_data_dir`
command, and the dispatch table registered in `main`. -/

/-- From `src/src-tauri/src/main.rs`, `greet`: embeds the caller-supplied
name into a fixed template via `format!`, which interpolates the argument
as data into the compile-time template, i.e. string concatenation. -/
def greet (name : String) : String :=
  "Hello, " ++ name ++ "! You\x27ve been greeted from Rust!"

/-- Modelled from the spec: the host environment seen by the path lookup.
`appDataDir` is the result of the host platform convention
(`tauri::api::path::app_data_dir`, outside `src/`): the per-application
data directory as a byte sequence, or `none` when the environment cannot
resolve it. -/
structure HostEnv where
  appDataDir : Option (List Nat)

/-- A UTF-8 continuation byte (`0x80`-`0xBF`). -/
def isCont (b : Nat) : Bool := decide (0x80 ≤ b ∧ b < 0xC0)

/-- Modelled from the spec: valid second byte of a three-byte UTF-8
sequence with lead byte `b`, as in Rust's UTF-8 validation (rejects
overlong encodings for lead `0xE0` and surrogates for lead `0xED`). -/
def utf8Cont3Ok (b b1 : Nat) : Bool :=
  if b = 0xE0 then decide (0xA0 ≤ b1 ∧ b1 < 0xC0)
  else if b = 0xED then decide (0x80 ≤ b1 ∧ b1 < 0xA0)
  else isCont b1

/-- Modelled from the spec: valid second byte of a four-byte UTF-8
sequence with lead byte `b`, as in Rust's UTF-8 validation (rejects
overlongs for lead `0xF0` and out-of-range values for lead `0xF4`). -/
def utf8Cont4Ok (b b1 : Nat) : Bool :=
  if b = 0xF0 then decide (0x90 ≤ b1 ∧ b1 < 0xC0)
  else if b = 0xF4 then decide (0x80 ≤ b1 ∧ b1 < 0x90)
  else isCont b1

/-- Modelled from the spec: decode one scalar value starting at lead byte
`b` followed by `bs`, returning the scalar (`0xFFFD` on invalid input)
and how many bytes of `bs` were consumed, following the recovery of
Rust's `String::from_utf8_lossy` (an invalid sequence is replaced by
`U+FFFD` and decoding resumes after its maximal valid prefix). -/
def utf8DecodeOne (b : Nat) (bs : List Nat) : Nat × Nat :=
  if b < 0x80 then (b, 0)
  else if b < 0xC2 then (0xFFFD, 0)
  else if b < 0xE0 then
    match bs with
    | b1 :: _ =>
      if isCont b1 then ((b - 0xC0) * 64 + (b1 - 0x80), 1) else (0xFFFD, 0)
    | [] => (0xFFFD, 0)
  else if b < 0xF0 then
    match bs with
    | b1 :: b2 :: _ =>
      if utf8Cont3Ok b b1 then
        if isCont b2 then
          ((b - 0xE0) * 4096 + (b1 - 0x80) * 64 + (b2 - 0x80), 2)
        else (0xFFFD, 1)
      else (0xFFFD, 0)
    | [b1] => if utf8Cont3Ok b b1 then (0xFFFD, 1) else (0xFFFD, 0)
    | [] => (0xFFFD, 0)
  else if b < 0xF5 then
    match bs with
    | b1 :: b2 :: b3 :: _ =>
      if utf8Cont4Ok b b1 then
        if isCont b2 then
          if isCont b3 then
            ((b - 0xF0) * 262144 + (b1 - 0x80) * 4096 + (b2 - 0x80) * 64
              + (b3 - 0x80), 3)
          else (0xFFFD, 2)
        else (0xFFFD, 1)
      else (0xFFFD, 0)
    | [b1, b2] =>
      if utf8Cont4Ok b b1 then
        (if isCont b2 then (0xFFFD, 2) else (0xFFFD, 1))
      else (0xFFFD, 0)
    | [b1] => if utf8Cont4Ok b b1 then (0xFFFD, 1) else (0xFFFD, 0)
    | [] => (0xFFFD, 0)
  else (0xFFFD, 0)

/-- Modelled from the spec: lossy UTF-8 decoding of a byte sequence into
Unicode scalar values, as performed by `Path::to_string_lossy` on the
resolved path in `src/src-tauri/src/main.rs` line 15. -/
def utf8DecodeLossy : List Nat → List Nat
  | [] => []
  | b :: bs =>
    (utf8DecodeOne b bs).1 :: utf8DecodeLossy (bs.drop (utf8DecodeOne b bs).2)
termination_by bs => bs.length
decreasing_by
  simp only [List.length_cons, List.length_drop]
  omega

/-- A Unicode scalar value: below `0x110000` and not a surrogate. -/
def isUnicodeScalar (c : Nat) : Bool :=
  decide (c < 0x110000 ∧ ¬ (0xD800 ≤ c ∧ c < 0xE000))

/-- The standard UTF-8 encoding of one Unicode scalar value. -/
def utf8EncodeChar (c : Nat) : List Nat :=
  if c < 0x80 then [c]
  else if c < 0x800 then [0xC0 + c / 64, 0x80 + c % 64]
  else if c < 0x10000 then
    [0xE0 + c / 4096, 0x80 + c / 64 % 64, 0x80 + c % 64]
  else
    [0xF0 + c / 262144, 0x80 + c / 4096 % 64, 0x80 + c / 64 % 64,
      0x80 + c % 64]

/-- The standard UTF-8 encoding of a sequence of Unicode scalar values. -/
def utf8Encode : List Nat → List Nat
  | [] => []
  | c :: cs => utf8EncodeChar c ++ utf8Encode cs

/-- The string obtained from a path's bytes by lossy UTF-8 decoding, i.e.
the result of `path.to_string_lossy().to_string()`. -/
def lossyToString (bs : List Nat) : String :=
  String.mk ((utf8DecodeLossy bs).map Char.ofNat)

/-- From `src/src-tauri/src/main.rs`, `get_app_data_dir`: matches the
optional path resolved by the host convention, returning its lossy string
rendering on `Some` and the fixed error message on `None`. -/
def get_app_data_dir (env : HostEnv) : Except String String :=
  match env.appDataDir with
  | some path => .ok (lossyToString path)
  | none => .error "Could not get app data directory"

/-- Outcome of one dispatched command invocation: a success value or an
error message, as marshalled back by the host runtime bridge. -/
inductive InvokeResult where
  | ok (value : String)
  | err (message : String)

/-- Lift a handler's `Result` into the invocation outcome. -/
def exceptToInvoke : Except String String → InvokeResult
  | .ok v => .ok v
  | .error m => .err m

/-- From `src/src-tauri/src/main.rs`, `main`: the dispatch table built by
`generate_handler![greet, get_app_data_dir]`, keyed by command name.
A `greet` invocation always succeeds with the greeting; an unregistered
name is not handled (`none`). -/
def invokeHandler (env : HostEnv) (cmd : String) (arg : String) :
    Option InvokeResult :=
  if cmd = "greet" then some (.ok (greet arg))
  else if cmd = "get_app_data_dir" then
    some (exceptToInvoke (get_app_data_dir env))
  else none

/-! Helper lemmas. -/

theorem utf8DecodeLossy_cons (b : Nat) (bs : List Nat) :
    utf8DecodeLossy (b :: bs)
      = (utf8DecodeOne b bs).1
        :: utf8DecodeLossy (bs.drop (utf8DecodeOne b bs).2) := by
  rw [utf8DecodeLossy]

/-- Decoding an encoded scalar value recovers it and continues with the
remaining bytes. -/
theorem decode_encodeChar (c : Nat) (h : isUnicodeScalar c = true)
    (rest : List Nat) :
    utf8DecodeLossy (utf8EncodeChar c ++ rest) = c :: utf8DecodeLossy rest := by
  have hc : c < 0x110000 ∧ ¬ (0xD800 ≤ c ∧ c < 0xE000) := by
    rw [isUnicodeScalar, decide_eq_true_eq] at h
    exact h
  by_cases h1 : c < 0x80
  · have hlist : utf8EncodeChar c ++ rest = c :: rest := by
      simp [utf8EncodeChar, h1]
    have e : utf8DecodeOne c rest = (c, 0) := by
      simp [utf8DecodeOne, h1]
    rw [hlist, utf8DecodeLossy_cons, e]
    simp
  · by_cases h2 : c < 0x800
    · have hlist : utf8EncodeChar c ++ rest
          = (0xC0 + c / 64) :: (0x80 + c % 64) :: rest := by
        simp [utf8EncodeChar, h1, h2]
      have hA : ¬ (0xC0 + c / 64 < 0x80) := by omega
      have hB : ¬ (0xC0 + c / 64 < 0xC2) := by omega
      have hC : 0xC0 + c / 64 < 0xE0 := by omega
      have hD : isCont (0x80 + c % 64) = true := by
        simp only [isCont, decide_eq_true_eq]
        omega
      have e : utf8DecodeOne (0xC0 + c / 64) ((0x80 + c % 64) :: rest)
          = (c, 1) := by
        simp only [utf8DecodeOne, hA, hB, hC, hD, if_false, if_true,
          ite_true, ite_false, if_neg, if_pos]
        simp [hA, hB, hC, hD]
        omega
      rw [hlist, utf8DecodeLossy_cons, e]
      simp
    · by_cases h3 : c < 0x10000
      · have hlist : utf8EncodeChar c ++ rest
            = (0xE0 + c / 4096) :: (0x80 + c / 64 % 64)
              :: (0x80 + c % 64) :: rest := by
          simp [utf8EncodeChar, h1, h2, h3]
        have hA : ¬ (0xE0 + c / 4096 < 0x80) := by omega
        have hB : ¬ (0xE0 + c / 4096 < 0xC2) := by omega
        have hC : ¬ (0xE0 + c / 4096 < 0xE0) := by omega
        have hD : 0xE0 + c / 4096 < 0xF0 := by omega
        have hE : utf8Cont3Ok (0xE0 + c / 4096) (0x80 + c / 64 % 64)
            = true := by
          by_cases h0 : c / 4096 = 0
          · have hb : (0xE0 + c / 4096) = 0xE0 := by omega
            rw [utf8Cont3Ok, if_pos hb, decide_eq_true_eq]
            omega
          · by_cases h13 : c / 4096 = 13
            · have hb : ¬ ((0xE0 + c / 4096) = 0xE0) := by omega
              have hb2 : (0xE0 + c / 4096) = 0xED := by omega
              rw [utf8Cont3Ok, if_neg hb, if_pos hb2, decide_eq_true_eq]
              have hns : ¬ (0xD800 ≤ c ∧ c < 0xE000) := hc.2
              omega
            · have hb : ¬ ((0xE0 + c / 4096) = 0xE0) := by omega
              have hb2 : ¬ ((0xE0 + c / 4096) = 0xED) := by omega
              rw [utf8Cont3Ok, if_neg hb, if_neg hb2]
              simp only [isCont, decide_eq_true_eq]
              omega
        have hF : isCont (0x80 + c % 64) = true := by
          simp only [isCont, decide_eq_true_eq]
          omega
        have e : utf8DecodeOne (0xE0 + c / 4096)
            ((0x80 + c / 64 % 64) :: (0x80 + c % 64) :: rest) = (c, 2) := by
          simp [utf8DecodeOne, hA, hB, hC, hD, hE, hF]
          omega
        rw [hlist, utf8DecodeLossy_cons, e]
        simp
      · have h4 : c < 0x110000 := hc.1
        have hlist : utf8EncodeChar c ++ rest
            = (0xF0 + c / 262144) :: (0x80 + c / 4096 % 64)
              :: (0x80 + c / 64 % 64) :: (0x80 + c % 64) :: rest := by
          simp [utf8EncodeChar, h1, h2, h3]
        have hA : ¬ (0xF0 + c / 262144 < 0x80) := by omega
        have hB : ¬ (0xF0 + c / 262144 < 0xC2) := by omega
        have hC : ¬ (0xF0 + c / 262144 < 0xE0) := by omega
        have hD : ¬ (0xF0 + c / 262144 < 0xF0) := by omega
        have hD2 : 0xF0 + c / 262144 < 0xF5 := by omega
        have hE : utf8Cont4Ok (0xF0 + c / 262144) (0x80 + c / 4096 % 64)
            = true := by
          by_cases h0 : c / 262144 = 0
          · have hb : (0xF0 + c / 262144) = 0xF0 := by omega
            rw [utf8Cont4Ok, if_pos hb, decide_eq_true_eq]
            omega
          · by_cases h4h : c / 262144 = 4
            · have hb : ¬ ((0xF0 + c / 262144) = 0xF0) := by omega
              have hb2 : (0xF0 + c / 262144) = 0xF4 := by omega
              rw [utf8Cont4Ok, if_neg hb, if_pos hb2, decide_eq_true_eq]
              omega
            · have hb : ¬ ((0xF0 + c / 262144) = 0xF0) := by omega
              have hb2 : ¬ ((0xF0 + c / 262144) = 0xF4) := by omega
              rw [utf8Cont4Ok, if_neg hb, if_neg hb2]
              simp only [isCont, decide_eq_true_eq]
              omega
        have hF : isCont (0x80 + c / 64 % 64) = true := by
          simp only [isCont, decide_eq_true_eq]
          omega
        have hG : isCont (0x80 + c % 64) = true := by
          simp only [isCont, decide_eq_true_eq]
          omega
        have e : utf8DecodeOne (0xF0 + c / 262144)
            ((0x80 + c / 4096 % 64) :: (0x80 + c / 64 % 64)
              :: (0x80 + c % 64) :: rest) = (c, 3) := by
          simp [utf8DecodeOne, hA, hB, hC, hD, hD2, hE, hF, hG]
          omega
        rw [hlist, utf8DecodeLossy_cons, e]
        simp

/-- Lossy decoding is a left inverse of UTF-8 encoding on sequences of
Unicode scalar values. -/
theorem decode_encode (cs : List Nat)
    (h : ∀ c ∈ cs, isUnicodeScalar c = true) :
    utf8DecodeLossy (utf8Encode cs) = cs := by
  induction cs with
  | nil => rw [utf8Encode, utf8DecodeLossy]
  | cons c cs ih =>
    rw [utf8Encode, decode_encodeChar c (h c (by simp)),
      ih (fun x hx => h x (by simp [hx]))]

/-- The lossy rendering of a non-empty byte sequence is non-empty. -/
theorem lossyToString_ne_empty (b : Nat) (bs : List Nat) :
    lossyToString (b :: bs) ≠ "" := by
  intro hcontra
  have h2 := congrArg String.data hcontra
  rw [lossyToString, utf8DecodeLossy_cons] at h2
  simp at h2

/-! Claim theorems. -/

/-- C1: for every input `s`, `greet s` is exactly the fixed template with
`s` embedded verbatim, hence contains `s` as a contiguous substring. -/
theorem greet_matches_template (s : String) :
    greet s = "Hello, " ++ s ++ "! You\x27ve been greeted from Rust!"
    ∧ ∃ p q : String, greet s = p ++ s ++ q :=
  ⟨rfl, ⟨"Hello, ", "! You\x27ve been greeted from Rust!", rfl⟩⟩

theorem greet_matches_template_witness :
    greet "World" = "Hello, " ++ "World" ++ "! You\x27ve been greeted from Rust!"
    ∧ ∃ p q : String, greet "World" = p ++ "World" ++ q :=
  greet_matches_template "World"

/-- C2: `get_app_data_dir` fails exactly when the host lookup yields
`none`, in which case it returns the single fixed human-readable error
message; when the lookup yields a path it succeeds. -/
theorem get_app_data_dir_error_exactly_when_unresolved (env : HostEnv) :
    ((∃ m, get_app_data_dir env = .error m) ↔ env.appDataDir = none)
    ∧ (env.appDataDir = none →
        get_app_data_dir env = .error "Could not get app data directory")
    ∧ (∀ bs, env.appDataDir = some bs →
        ∃ out, get_app_data_dir env = .ok out) := by
  cases env with
  | mk o =>
    cases o with
    | none => simp [get_app_data_dir]
    | some bs => simp [get_app_data_dir]

theorem get_app_data_dir_error_exactly_when_unresolved_witness :
    ((∃ m, get_app_data_dir ⟨none⟩ = .error m)
        ↔ (⟨none⟩ : HostEnv).appDataDir = none)
    ∧ ((⟨none⟩ : HostEnv).appDataDir = none →
        get_app_data_dir ⟨none⟩ = .error "Could not get app data directory")
    ∧ (∀ bs, (⟨none⟩ : HostEnv).appDataDir = some bs →
        ∃ out, get_app_data_dir ⟨none⟩ = .ok out) :=
  get_app_data_dir_error_exactly_when_unresolved ⟨none⟩

/-- C3: when the host lookup yields a (non-empty) path, `get_app_data_dir`
succeeds and the success value is never the empty string. -/
theorem get_app_data_dir_success_nonempty (env : HostEnv) (bs : List Nat)
    (h : env.appDataDir = some bs) (hne : bs ≠ []) :
    ∃ out, get_app_data_dir env = .ok out ∧ out ≠ "" := by
  refine ⟨lossyToString bs, ?_, ?_⟩
  · simp [get_app_data_dir, h]
  · cases bs with
    | nil => exact absurd rfl hne
    | cons b bs2 => exact lossyToString_ne_empty b bs2

theorem get_app_data_dir_success_nonempty_witness :
    ∃ out, get_app_data_dir ⟨some [104]⟩ = .ok out ∧ out ≠ "" :=
  get_app_data_dir_success_nonempty ⟨some [104]⟩ [104] rfl (by decide)

/-- C4: on success, `get_app_data_dir` returns exactly the path resolved
by the host platform's per-application data directory convention,
rendered as text. -/
theorem get_app_data_dir_returns_host_path (env : HostEnv) (bs : List Nat)
    (h : env.appDataDir = some bs) :
    get_app_data_dir env = .ok (lossyToString bs) := by
  simp [get_app_data_dir, h]

theorem get_app_data_dir_returns_host_path_witness :
    get_app_data_dir ⟨some [104]⟩ = .ok (lossyToString [104]) :=
  get_app_data_dir_returns_host_path ⟨some [104]⟩ [104] rfl

/-- C5: `greet` is total: every dispatched `greet` invocation, on any
input and in any host environment, yields a success value and never an
error. -/
theorem greet_is_total (s : String) (env : HostEnv) :
    ∃ v : String, invokeHandler env "greet" s = some (InvokeResult.ok v) :=
  ⟨greet s, by simp [invokeHandler]⟩

theorem greet_is_total_witness :
    ∃ v : String,
      invokeHandler ⟨none⟩ "greet" "World" = some (InvokeResult.ok v) :=
  greet_is_total "World" ⟨none⟩

/-- C6: `greet` on the empty string returns the template with an empty
substitution. -/
theorem greet_empty_input :
    greet "" = "Hello, ! You\x27ve been greeted from Rust!" := rfl

/-- C7: both operations are deterministic: two invocations of `greet` on
the same input give equal outputs, and two invocations of
`get_app_data_dir` under the same host environment give equal results. -/
theorem commands_deterministic (s : String) (env : HostEnv)
    (t₁ t₂ : String) (r₁ r₂ : Except String String)
    (h₁ : greet s = t₁) (h₂ : greet s = t₂)
    (g₁ : get_app_data_dir env = r₁) (g₂ : get_app_data_dir env = r₂) :
    t₁ = t₂ ∧ r₁ = r₂ := by
  subst h₁
  subst h₂
  subst g₁
  subst g₂
  exact ⟨rfl, rfl⟩

theorem commands_deterministic_witness :
    greet "a" = greet "a"
    ∧ get_app_data_dir ⟨none⟩ = get_app_data_dir ⟨none⟩ :=
  commands_deterministic "a" ⟨none⟩ (greet "a") (greet "a")
    (get_app_data_dir ⟨none⟩) (get_app_data_dir ⟨none⟩) rfl rfl rfl rfl

/-- C8: the dispatch table maps exactly the two names `greet` and
`get_app_data_dir` to their handlers; any other name is not handled. -/
theorem invoke_handler_surface (env : HostEnv) (arg : String) :
    invokeHandler env "greet" arg = some (InvokeResult.ok (greet arg))
    ∧ invokeHandler env "get_app_data_dir" arg
        = some (exceptToInvoke (get_app_data_dir env))
    ∧ ∀ cmd, invokeHandler env cmd arg ≠ none →
        cmd = "greet" ∨ cmd = "get_app_data_dir" := by
  refine ⟨by simp [invokeHandler], by simp [invokeHandler], ?_⟩
  intro cmd hne
  by_cases hg : cmd = "greet"
  · exact Or.inl hg
  · by_cases hd : cmd = "get_app_data_dir"
    · exact Or.inr hd
    · exact absurd (by simp [invokeHandler, hg, hd]) hne

theorem invoke_handler_surface_witness :
    invokeHandler ⟨none⟩ "greet" "x" = some (InvokeResult.ok (greet "x"))
    ∧ invokeHandler ⟨none⟩ "get_app_data_dir" "x"
        = some (exceptToInvoke (get_app_data_dir ⟨none⟩))
    ∧ ∀ cmd, invokeHandler ⟨none⟩ cmd "x" ≠ none →
        cmd = "greet" ∨ cmd = "get_app_data_dir" :=
  invoke_handler_surface ⟨none⟩ "x"

/-- C9: `greet` is immune to format-string injection: any input, braces
included, is embedded verbatim as data and never interpreted as part of
the template; in particular `greet` on a brace pair returns the template
around the brace pair. -/
theorem greet_format_injection_immune (s : String) :
    greet s = "Hello, " ++ s ++ "! You\x27ve been greeted from Rust!"
    ∧ greet "\x7b\x7d"
        = "Hello, \x7b\x7d! You\x27ve been greeted from Rust!" :=
  ⟨rfl, rfl⟩

theorem greet_format_injection_immune_witness :
    greet "abc" = "Hello, " ++ "abc" ++ "! You\x27ve been greeted from Rust!"
    ∧ greet "\x7b\x7d"
        = "Hello, \x7b\x7d! You\x27ve been greeted from Rust!" :=
  greet_format_injection_immune "abc"

/-- C10: on success, `get_app_data_dir` returns the lossy UTF-8 rendering
of the resolved path bytes: the decoded text equals the original scalar
sequence whenever the bytes are its valid UTF-8 encoding, while an
invalid byte is replaced by `U+FFFD`. -/
theorem get_app_data_dir_lossy_utf8 (env : HostEnv) (bs : List Nat)
    (h : env.appDataDir = some bs) :
    get_app_data_dir env = .ok (lossyToString bs)
    ∧ (∀ cs, (∀ c ∈ cs, isUnicodeScalar c = true) → bs = utf8Encode cs →
        utf8DecodeLossy bs = cs)
    ∧ utf8DecodeLossy [0xFF] = [0xFFFD] := by
  refine ⟨by simp [get_app_data_dir, h], ?_, ?_⟩
  · intro cs hcs hbs
    rw [hbs]
    exact decode_encode cs hcs
  · rw [utf8DecodeLossy_cons]
    simp [utf8DecodeOne, utf8DecodeLossy]

theorem get_app_data_dir_lossy_utf8_witness :
    get_app_data_dir ⟨some [104, 105]⟩ = .ok (lossyToString [104, 105])
    ∧ (∀ cs, (∀ c ∈ cs, isUnicodeScalar c = true) →
        [104, 105] = utf8Encode cs → utf8DecodeLossy [104, 105] = cs)
    ∧ utf8DecodeLossy [0xFF] = [0xFFFD] :=
  get_app_data_dir_lossy_utf8 ⟨some [104, 105]⟩ [104, 105] rfl
